import Mathlib

/-!
Shallow embedding of the ambient-soundscape audio engine
(`useAudioEngine` hook: LoopingPlayer, gain automation, mix-engine
operations) together with proofs of its specified properties.

Times, gain values and sample rates are modelled as rationals; the Web
Audio automation timeline of a gain parameter is modelled as the list of
its scheduled automation events, and the observable value of a parameter
at a time `t` is computed from that timeline exactly as the Web Audio
model prescribes (piecewise constant after `setValueAtTime`, linear
interpolation from the previous event point up to the end point of a
`linearRampToValueAtTime`).
-/

namespace Etherfields

/-- Constant `FADE_TIME = 3.5` seconds, from `constants.ts`. -/
def FADE_TIME : ℚ := 7 / 2

/-- Constant `OVERLAP_DURATION = 0.1` (100 ms overlap to cover potential gaps). -/
def OVERLAP_DURATION : ℚ := 1 / 10

/-- Constant `scheduleAheadTime = 0.1` s: how far ahead the looping player schedules audio. -/
def scheduleAheadTime : ℚ := 1 / 10

/-- Constant `lookahead = 25.0` ms: wake-up cadence of the scheduler timer. -/
def lookahead : ℚ := 25

-- ---------------------------------------------------------------------------
-- Web Audio gain automation (AudioParam)
-- ---------------------------------------------------------------------------

/-- One automation event on a gain parameter's timeline:
`setValue t v` is `setValueAtTime(v, t)`, `ramp t v` is
`linearRampToValueAtTime(v, t)` (its time is the ramp's end time). -/
inductive AEvent where
  | setValue (time value : ℚ)
  | ramp (time value : ℚ)
deriving DecidableEq

/-- The (end) time of an automation event. -/
def AEvent.time : AEvent → ℚ
  | .setValue t _ => t
  | .ramp t _ => t

/-- The (end) value of an automation event. -/
def AEvent.val : AEvent → ℚ
  | .setValue _ v => v
  | .ramp _ v => v

/-- A gain parameter: its initial value and its automation timeline.
The engine only appends events at non-decreasing times (after cancelling
everything at or after the current time), so the list is kept in
chronological order by the operations below. -/
structure AudioParam where
  initialValue : ℚ
  events : List AEvent
deriving DecidableEq

/-- Value of the automation timeline at time `t`, walking the event list
with the previous anchor point `(pt, pv)`.  A `setValue` event holds its
value from its time on; a `ramp` event interpolates linearly from the
previous anchor point to its own `(time, value)` point. -/
def valueFrom (pt pv : ℚ) : List AEvent → ℚ → ℚ
  | [], _ => pv
  | e :: es, t =>
    if t < e.time then
      match e with
      | .setValue _ _ => pv
      | .ramp te v => if te ≤ pt then v else pv + (v - pv) * (t - pt) / (te - pt)
    else valueFrom e.time e.val es t

/-- Observable value of the parameter at time `t` (the anchor before any
event is the initial value, anchored at time 0, matching a parameter
whose `gain.value` was assigned at creation). -/
def AudioParam.valueAt (p : AudioParam) (t : ℚ) : ℚ :=
  valueFrom 0 p.initialValue p.events t

/-- Operation `gain.cancelScheduledValues(t)`: removes every event whose time is
greater than or equal to `t`. -/
def AudioParam.cancelScheduledValues (p : AudioParam) (t : ℚ) : AudioParam :=
  { p with events := p.events.filter (fun e => e.time < t) }

/-- Operation `gain.setValueAtTime(v, t)`. -/
def AudioParam.setValueAtTime (p : AudioParam) (v t : ℚ) : AudioParam :=
  { p with events := p.events ++ [.setValue t v] }

/-- Operation `gain.linearRampToValueAtTime(v, t)`. -/
def AudioParam.linearRampToValueAtTime (p : AudioParam) (v t : ℚ) : AudioParam :=
  { p with events := p.events ++ [.ramp t v] }

/-- The cancel–snapshot–ramp idiom used verbatim by `setLayerVolume`,
`setMainVolume`, `toggleMute`, `selectTheme` (old theme) and
`resetAndPlayTheme` (phase 1):

    gain.cancelScheduledValues(currentTime);
    gain.setValueAtTime(gain.value, currentTime);
    gain.linearRampToValueAtTime(target, currentTime + duration);

The `gain.value` getter returns the last value computed by the renderer,
i.e. the value of the timeline as it stood before the cancellation took
effect, so the snapshot is taken on the pre-cancellation timeline. -/
def AudioParam.rampTo (p : AudioParam) (now target duration : ℚ) : AudioParam :=
  let v := p.valueAt now
  ((p.cancelScheduledValues now).setValueAtTime v now).linearRampToValueAtTime
    target (now + duration)

-- ---------------------------------------------------------------------------
-- Audio buffers
-- ---------------------------------------------------------------------------

/-- A decoded PCM buffer: channel count, frame count and sample rate.
JS numbers are modelled as rationals throughout. -/
structure AudioBuffer where
  numberOfChannels : ℕ
  length : ℚ
  sampleRate : ℚ
deriving DecidableEq

/-- Derived `buffer.duration = length / sampleRate`. -/
def AudioBuffer.duration (b : AudioBuffer) : ℚ := b.length / b.sampleRate

/-- Helper `createSilentAudioBuffer(context, duration)`: a one-channel buffer of
`sampleRate * duration` frames at the context's sample rate
(`context.createBuffer(1, frameCount, sampleRate)`, zero-filled). -/
def createSilentAudioBuffer (sampleRate : ℚ) (duration : ℚ) : AudioBuffer :=
  { numberOfChannels := 1, length := sampleRate * duration, sampleRate := sampleRate }

-- ---------------------------------------------------------------------------
-- LoopingPlayer
-- ---------------------------------------------------------------------------

/-- The body of `LoopingPlayer.scheduler`'s while loop:

    while (this.nextNoteTime < this.context.currentTime + this.scheduleAheadTime) {
      this.scheduleNote(this.nextNoteTime);
      this.nextNoteTime += this.buffer.duration - OVERLAP_DURATION;
    }

Returns the list of start times passed to `scheduleNote` (in order) and
the final `nextNoteTime`.  The loop terminates because the step
`buffer.duration - OVERLAP_DURATION` is positive — guaranteed by
`start()`'s guard `buffer.duration <= OVERLAP_DURATION`; the conjunct
`0 < step` in the guard makes the definition total. -/
def loopSched (step deadline next : ℚ) : List ℚ × ℚ :=
  if h : 0 < step ∧ next < deadline then
    let r := loopSched step deadline (next + step)
    (next :: r.1, r.2)
  else ([], next)
termination_by (⌈(deadline - next) / step⌉).toNat
decreasing_by
  have hs : (0:ℚ) < step := h.1
  have hx : (0:ℚ) < (deadline - next) / step := by
    exact div_pos (by linarith [h.2]) hs
  have hrw : (deadline - (next + step)) / step = (deadline - next) / step - 1 := by
    field_simp
    ring
  rw [hrw, Int.ceil_sub_one]
  have hpos : 0 < ⌈(deadline - next) / step⌉ := Int.ceil_pos.mpr hx
  omega

/-- State of one `LoopingPlayer`.  `scheduled` records, in order, the
start times of the buffer-source nodes started via `scheduleNote`
(`source.start(time)`): it is the observable effect log of the player on
the audio graph. -/
structure LoopingPlayer where
  buffer : AudioBuffer
  gainNode : AudioParam
  isPlaying : Bool
  nextNoteTime : ℚ
  timerId : Option ℕ
  scheduled : List ℚ
deriving DecidableEq

/-- The `LoopingPlayer` constructor: stores the buffer and creates a gain
node whose gain value is `initialGain`. -/
def mkLoopingPlayer (buffer : AudioBuffer) (initialGain : ℚ) : LoopingPlayer :=
  { buffer := buffer
    gainNode := { initialValue := initialGain, events := [] }
    isPlaying := false
    nextNoteTime := 0
    timerId := none
    scheduled := [] }

/-- One invocation of `LoopingPlayer.scheduler` at clock time `now`:
returns unchanged if not playing; otherwise runs the while loop and
re-arms the wake-up timer. -/
def LoopingPlayer.schedulerStep (p : LoopingPlayer) (now : ℚ) : LoopingPlayer :=
  if p.isPlaying then
    let r := loopSched (p.buffer.duration - OVERLAP_DURATION)
      (now + scheduleAheadTime) p.nextNoteTime
    { p with scheduled := p.scheduled ++ r.1, nextNoteTime := r.2, timerId := some 0 }
  else p

/-- Operation `LoopingPlayer.start()` at clock time `now`:

    if (this.isPlaying || this.buffer.duration <= OVERLAP_DURATION) return;
    this.isPlaying = true;
    this.nextNoteTime = this.context.currentTime + 0.1;
    this.scheduler();
-/
def LoopingPlayer.start (p : LoopingPlayer) (now : ℚ) : LoopingPlayer :=
  if p.isPlaying || decide (p.buffer.duration ≤ OVERLAP_DURATION) then p
  else
    LoopingPlayer.schedulerStep
      { p with isPlaying := true, nextNoteTime := now + 1 / 10 } now

/-- Operation `LoopingPlayer.stop()`: halt scheduling and clear the pending timer. -/
def LoopingPlayer.stop (p : LoopingPlayer) : LoopingPlayer :=
  { p with isPlaying := false, timerId := none }

/-- A sequence of scheduler wake-ups at the given clock times. -/
def runWakes (p : LoopingPlayer) (wakes : List ℚ) : LoopingPlayer :=
  wakes.foldl LoopingPlayer.schedulerStep p

-- ---------------------------------------------------------------------------
-- Engine data model
-- ---------------------------------------------------------------------------

/-- A theme asset (only the fields the engine reads). -/
structure Theme where
  id : String
  audioSrc : String
deriving DecidableEq

/-- A layer asset (only the fields the engine reads). -/
structure SoundLayer where
  id : String
  name : String
  audioSrc : String
deriving DecidableEq

/-- Enum `AudioState` from the hook. -/
inductive AudioState where
  | Suspended
  | Running
  | Closed
deriving DecidableEq

/-- Outcome of fetching and decoding one layer asset:
`ok` is a 2xx response with decodable bytes; the other constructors are
the failure modes caught by the loader's `.catch`. -/
inductive LoadResult where
  | ok (buf : AudioBuffer)
  | fetchError
  | httpError (status : ℕ)
  | decodeError
deriving DecidableEq

/-- The per-layer load pipeline's net effect: a successful fetch+decode
stores the decoded buffer; any failure logs a warning (second component)
and stores a 2-second silent buffer at the context's sample rate. -/
def loadLayerBuffer (sampleRate : ℚ) (r : LoadResult) : AudioBuffer × Bool :=
  match r with
  | .ok buf => (buf, false)
  | _ => (createSilentAudioBuffer sampleRate 2, true)

/-- Engine state: the refs and React state of `useAudioEngine`.
`ctxPresent` is `audioContextRef.current !== null`; `ctxClosed` is
`context.state === 'closed'`; `contextsCreated` counts evaluations of
`new AudioContext(...)` (the effect log of context creation);
`themeGains` is `themeGainNodesRef` (each value the node's gain
parameter); `layerPlayers` is `layerPlayersRef`; `layerBuffers` is
`layerAudioBuffersRef`. -/
structure AudioEngine where
  ctxPresent : Bool
  ctxClosed : Bool
  contextsCreated : ℕ
  sampleRate : ℚ
  masterGain : Option AudioParam
  themeGains : List (String × AudioParam)
  layerPlayers : List (String × LoopingPlayer)
  layerBuffers : List (String × AudioBuffer)
  isInitialized : Bool
  isLoading : Bool
  isMuted : Bool
  audioState : AudioState
  activeThemeId : String
  currentVolumes : List (String × ℚ)
deriving DecidableEq

/-- The hook's initial state for given initial props (all refs null/empty,
React state from the props). -/
def mkEngine (initialThemeId : String) (initialVolumes : List (String × ℚ)) : AudioEngine :=
  { ctxPresent := false
    ctxClosed := false
    contextsCreated := 0
    sampleRate := 0
    masterGain := none
    themeGains := []
    layerPlayers := []
    layerBuffers := []
    isInitialized := false
    isLoading := false
    isMuted := false
    audioState := .Suspended
    activeThemeId := initialThemeId
    currentVolumes := initialVolumes }

/-- Mutate the value stored under key `k` of a JS `Map` (association
list); keys are unique in a `Map`, and a `get` that returns `undefined`
(key absent) leaves the map unchanged. -/
def updateLookup (m : List (String × α)) (k : String) (f : α → α) :
    List (String × α) :=
  m.map (fun kv => if kv.1 = k then (kv.1, f kv.2) else kv)

/-- Spread `{ ...prev, [k]: v }`: overwrite or add one record entry. -/
def recordSet (m : List (String × ℚ)) (k : String) (v : ℚ) : List (String × ℚ) :=
  m.filter (fun kv => kv.1 ≠ k) ++ [(k, v)]

/-- Spread `{ ...prev, ...new }`: right-biased record merge. -/
def recordMerge (m new : List (String × ℚ)) : List (String × ℚ) :=
  new.foldl (fun acc kv => recordSet acc kv.1 kv.2) m

-- ---------------------------------------------------------------------------
-- Engine operations
-- ---------------------------------------------------------------------------

/-- Operation `selectTheme(themeId, targetVolume)` at clock time `now`:

    if (!context || themeId === activeThemeId) return;
    // fade out old theme: cancel, snapshot current value, ramp to 0
    // fade in new theme: cancel, set value 0, ramp to targetVolume
    setActiveThemeId(themeId);
-/
def selectTheme (e : AudioEngine) (now : ℚ) (themeId : String) (targetVolume : ℚ) :
    AudioEngine :=
  if !e.ctxPresent || themeId = e.activeThemeId then e
  else
    let fadeEndTime := now + FADE_TIME
    let gains1 := updateLookup e.themeGains e.activeThemeId
      (fun g => g.rampTo now 0 FADE_TIME)
    let gains2 := updateLookup gains1 themeId
      (fun g => ((g.cancelScheduledValues now).setValueAtTime 0 now).linearRampToValueAtTime
        targetVolume fadeEndTime)
    { e with themeGains := gains2, activeThemeId := themeId }

/-- The synchronous prefix of `initializeAudio` (everything before the
`await Promise.all(loadPromises)`): create the audio context (and resume
it), set the loading flag, create the master gain at value 0, and create
one gain node per theme with the active theme at `initialMainVolume` and
every other theme at 0.  The re-entrancy guard `if (isInitialized)
return;` lives in `initializeAudio` below. -/
def initStart (e : AudioEngine) (sampleRate : ℚ) (themes : List Theme)
    (initialThemeId : String) (initialMainVolume : ℚ) : AudioEngine :=
  { e with
    ctxPresent := true
    ctxClosed := false
    contextsCreated := e.contextsCreated + 1
    sampleRate := sampleRate
    audioState := .Running
    isLoading := true
    masterGain := some { initialValue := 0, events := [] }
    themeGains := themes.map (fun th =>
      (th.id, { initialValue := if th.id = initialThemeId then initialMainVolume else 0,
                events := [] })) }

/-- The continuation of `initializeAudio` after the layer loads settle
(at clock time `now`): store each layer's decoded (or silent-fallback)
buffer, create and start one `LoopingPlayer` per layer with its initial
gain from `currentVolumes` (default 0), ramp master gain to 1 over
`FADE_TIME`, and clear the loading / set the initialized flags. -/
def initFinish (e : AudioEngine) (now : ℚ) (allLayers : List SoundLayer)
    (outcomes : String → LoadResult) : AudioEngine :=
  let buffers := allLayers.map (fun l =>
    (l.id, (loadLayerBuffer e.sampleRate (outcomes l.id)).1))
  let players := allLayers.filterMap (fun l =>
    (buffers.lookup l.id).map (fun buf =>
      (l.id, (mkLoopingPlayer buf ((e.currentVolumes.lookup l.id).getD 0)).start now)))
  { e with
    layerBuffers := buffers
    layerPlayers := players
    masterGain := e.masterGain.map (fun g =>
      g.linearRampToValueAtTime 1 (now + FADE_TIME))
    isLoading := false
    isInitialized := true }

/-- Operation `initializeAudio()`, with the asynchronous load results supplied as
`outcomes` and the clock time of the post-load continuation as `now`:

    if (isInitialized) return;
    ...synchronous setup...; await Promise.all(loadPromises); ...finish...
-/
def initializeAudio (e : AudioEngine) (now sampleRate : ℚ) (themes : List Theme)
    (allLayers : List SoundLayer) (initialThemeId : String) (initialMainVolume : ℚ)
    (outcomes : String → LoadResult) : AudioEngine :=
  if e.isInitialized then e
  else initFinish (initStart e sampleRate themes initialThemeId initialMainVolume)
    now allLayers outcomes

/-- Operation `setLayerVolume(layerId, volume, duration = 0.1)` at clock time `now`:

    if (!context || !player) return;
    player.gain: cancel, snapshot, ramp to volume over duration;
    setCurrentVolumes(prev => ({ ...prev, [layerId]: volume }));
-/
def setLayerVolume (e : AudioEngine) (now : ℚ) (layerId : String) (volume : ℚ)
    (duration : ℚ := 1 / 10) : AudioEngine :=
  if !e.ctxPresent || (e.layerPlayers.lookup layerId).isNone then e
  else
    { e with
      layerPlayers := updateLookup e.layerPlayers layerId
        (fun p => { p with gainNode := p.gainNode.rampTo now volume duration })
      currentVolumes := recordSet e.currentVolumes layerId volume }

/-- Operation `setMainVolume(volume, duration = 0.1, themeIdToTarget?)` at clock
time `now`: ramps the targeted theme's gain (default: the active theme). -/
def setMainVolume (e : AudioEngine) (now : ℚ) (volume : ℚ) (duration : ℚ := 1 / 10)
    (themeIdToTarget : Option String := none) : AudioEngine :=
  let targetId := themeIdToTarget.getD e.activeThemeId
  if !e.ctxPresent || (e.themeGains.lookup targetId).isNone then e
  else
    { e with
      themeGains := updateLookup e.themeGains targetId
        (fun g => g.rampTo now volume duration) }

/-- Operation `toggleMute()` at clock time `now`: flip the muted flag and ramp the
master gain to 0 (muting) or 1 (unmuting) over `FADE_TIME / 2`. -/
def toggleMute (e : AudioEngine) (now : ℚ) : AudioEngine :=
  match e.masterGain with
  | none => e
  | some g =>
    if !e.ctxPresent then e
    else
      let newMuteState := !e.isMuted
      let targetVolume : ℚ := if newMuteState then 0 else 1
      { e with
        isMuted := newMuteState
        masterGain := some (g.rampTo now targetVolume (FADE_TIME / 2)) }

/-- Constant `fadeOutDuration = 0.5` s in `resetAndPlayTheme`. -/
def fadeOutDuration : ℚ := 1 / 2

/-- Constant `fadeInDuration = 1.5` s in `resetAndPlayTheme`. -/
def fadeInDuration : ℚ := 3 / 2

/-- The target a theme's gain is set to during `resetAndPlayTheme`'s
silent reconfiguration: `themeId === newThemeAudioId ? newMainVolume : 0`. -/
def themeTarget (newThemeAudioId : String) (newMainVolume : ℚ) (themeId : String) : ℚ :=
  if themeId = newThemeAudioId then newMainVolume else 0

/-- The target a layer's gain is set to during `resetAndPlayTheme`'s
silent reconfiguration:
`newLayers.includes(layerId) ? (newLayerVolumes[layerId] ?? 0.5) : 0`. -/
def layerTarget (newLayers : List String) (newLayerVolumes : List (String × ℚ))
    (layerId : String) : ℚ :=
  if newLayers.contains layerId then (newLayerVolumes.lookup layerId).getD (1 / 2)
  else 0

/-- The `setTimeout` callback of `resetAndPlayTheme`, firing at clock
time `now`: bail out if the context has been closed; otherwise set every
theme gain and every layer gain instantaneously (cancel + `setValueAtTime`,
no ramp) to its new target, update the bookkeeping state, and ramp the
master gain back to 1 over `fadeInDuration`. -/
def resetPhase2 (e : AudioEngine) (now : ℚ) (newThemeAudioId : String)
    (newLayers : List String) (newMainVolume : ℚ)
    (newLayerVolumes : List (String × ℚ)) : AudioEngine :=
  if e.ctxClosed then e
  else
    { e with
      themeGains := e.themeGains.map (fun kv =>
        (kv.1, (kv.2.cancelScheduledValues now).setValueAtTime
          (themeTarget newThemeAudioId newMainVolume kv.1) now))
      layerPlayers := e.layerPlayers.map (fun kv =>
        let g := (kv.2.gainNode.cancelScheduledValues now).setValueAtTime
          (layerTarget newLayers newLayerVolumes kv.1) now
        (kv.1, { kv.2 with gainNode := g }))
      currentVolumes := recordMerge e.currentVolumes newLayerVolumes
      activeThemeId := newThemeAudioId
      masterGain := e.masterGain.map (fun g =>
        g.linearRampToValueAtTime 1 (now + fadeInDuration)) }

/-- Operation `resetAndPlayTheme(newThemeAudioId, newLayers, newMainVolume,
newLayerVolumes)`: at clock time `t0`, guard on context and master gain,
then ramp master gain to 0 over `fadeOutDuration` (cancel–snapshot–ramp);
the `setTimeout(…, fadeOutDuration * 1000)` callback then runs
`resetPhase2` at clock time `t1` (the timeout fires no earlier than its
delay, so `t0 + fadeOutDuration ≤ t1`). -/
def resetAndPlayTheme (e : AudioEngine) (t0 t1 : ℚ) (newThemeAudioId : String)
    (newLayers : List String) (newMainVolume : ℚ)
    (newLayerVolumes : List (String × ℚ)) : AudioEngine :=
  match e.masterGain with
  | none => e
  | some g =>
    if !e.ctxPresent then e
    else
      resetPhase2 { e with masterGain := some (g.rampTo t0 0 fadeOutDuration) }
        t1 newThemeAudioId newLayers newMainVolume newLayerVolumes

/-- Operation `cleanupAudio()`: stop and disconnect every layer player, clear the
ref maps, pause the theme elements, close the audio context (the close
promise sets `audioState` to Closed), null the refs, clear the
initialized flag. -/
def cleanupAudio (e : AudioEngine) : AudioEngine :=
  { e with
    layerPlayers := []
    layerBuffers := []
    themeGains := []
    audioState := if e.ctxPresent && !e.ctxClosed then .Closed else e.audioState
    ctxPresent := false
    ctxClosed := true
    masterGain := none
    isInitialized := false }

/-- The master-gain value audible at time `t` (0 when no master gain node
exists). -/
def masterValueAt (e : AudioEngine) (t : ℚ) : ℚ :=
  match e.masterGain with
  | none => 0
  | some g => g.valueAt t

/-- The scheduling invariant of a looping player with segment step `s`:
the start times already scheduled form an arithmetic chain of step `s`,
and the pending `nextNoteTime` is one step past the last of them. -/
def schedInv (s : ℚ) (p : LoopingPlayer) : Prop :=
  List.Chain' (fun a b => b - a = s) p.scheduled ∧
    ∀ x ∈ p.scheduled.getLast?, p.nextNoteTime = x + s

-- ---------------------------------------------------------------------------
-- Helper lemmas: loopSched
-- ---------------------------------------------------------------------------

theorem loopSched_mem_lt (step deadline : ℚ) :
    ∀ (next : ℚ), ∀ x ∈ (loopSched step deadline next).1, x < deadline := by
  intro next
  induction next using loopSched.induct step deadline with
  | case1 next h ih =>
    rw [loopSched]
    simp only [dif_pos h]
    intro x hx
    rcases List.mem_cons.mp hx with rfl | hx
    · exact h.2
    · exact ih x hx
  | case2 next h =>
    rw [loopSched]
    simp [dif_neg h]

theorem loopSched_snd_ge (step deadline : ℚ) (hs : 0 < step) :
    ∀ (next : ℚ), deadline ≤ (loopSched step deadline next).2 := by
  intro next
  induction next using loopSched.induct step deadline with
  | case1 next h ih =>
    rw [loopSched]
    simpa only [dif_pos h] using ih
  | case2 next h =>
    rw [loopSched]
    simp only [dif_neg h]
    push_neg at h
    exact h hs

theorem loopSched_fst_empty_iff (step deadline next : ℚ) :
    (loopSched step deadline next).1 = [] ↔ ¬(0 < step ∧ next < deadline) := by
  rw [loopSched]
  by_cases h : 0 < step ∧ next < deadline
  · simp [dif_pos h, h]
  · simp [dif_neg h, h]

theorem loopSched_snd_of_empty (step deadline next : ℚ)
    (h : (loopSched step deadline next).1 = []) :
    (loopSched step deadline next).2 = next := by
  have hg := (loopSched_fst_empty_iff step deadline next).mp h
  rw [loopSched, dif_neg hg]

theorem loopSched_head (step deadline next : ℚ) (h : 0 < step ∧ next < deadline) :
    (loopSched step deadline next).1.head? = some next := by
  rw [loopSched, dif_pos h]
  rfl

theorem loopSched_chain (step deadline : ℚ) :
    ∀ (next : ℚ),
      List.Chain' (fun a b => b - a = step) (loopSched step deadline next).1 := by
  intro next
  induction next using loopSched.induct step deadline with
  | case1 next h ih =>
    rw [loopSched]
    simp only [dif_pos h]
    refine List.chain'_cons'.mpr ⟨?_, ih⟩
    intro y hy
    by_cases hg : 0 < step ∧ next + step < deadline
    · rw [loopSched_head step deadline _ hg] at hy
      simp only [Option.mem_def, Option.some.injEq] at hy
      linarith [hy.symm]
    · rw [(loopSched_fst_empty_iff step deadline _).mpr hg] at hy
      simp at hy
  | case2 next h =>
    rw [loopSched]
    simp [dif_neg h]

theorem loopSched_getLast (step deadline : ℚ) :
    ∀ (next : ℚ), ∀ x ∈ (loopSched step deadline next).1.getLast?,
      (loopSched step deadline next).2 = x + step := by
  intro next
  induction next using loopSched.induct step deadline with
  | case1 next h ih =>
    rw [loopSched]
    simp only [dif_pos h]
    intro x hx
    by_cases he : (loopSched step deadline (next + step)).1 = []
    · rw [he] at hx
      simp only [List.getLast?_singleton, Option.mem_def, Option.some.injEq] at hx
      have h2 := loopSched_snd_of_empty step deadline (next + step) he
      rw [h2, ← hx]
    · rw [show next :: (loopSched step deadline (next + step)).1 =
            [next] ++ (loopSched step deadline (next + step)).1 from rfl,
          List.getLast?_append_of_ne_nil _ he] at hx
      exact ih x hx
  | case2 next h =>
    rw [loopSched]
    simp [dif_neg h]

-- ---------------------------------------------------------------------------
-- Helper lemmas: scheduler invariant
-- ---------------------------------------------------------------------------

theorem schedulerStep_buffer (p : LoopingPlayer) (now : ℚ) :
    (p.schedulerStep now).buffer = p.buffer := by
  unfold LoopingPlayer.schedulerStep
  by_cases h : p.isPlaying <;> simp [h]

theorem schedInv_schedulerStep (p : LoopingPlayer) (now : ℚ)
    (hinv : schedInv (p.buffer.duration - OVERLAP_DURATION) p) :
    schedInv (p.buffer.duration - OVERLAP_DURATION) (p.schedulerStep now) := by
  set s := p.buffer.duration - OVERLAP_DURATION with hs
  unfold LoopingPlayer.schedulerStep
  by_cases hp : p.isPlaying
  · simp only [hp, if_true]
    set r := loopSched s (now + scheduleAheadTime) p.nextNoteTime with hr
    constructor
    · refine List.Chain'.append hinv.1 (loopSched_chain s _ _) ?_
      intro x hx y hy
      by_cases hg : 0 < s ∧ p.nextNoteTime < now + scheduleAheadTime
      · rw [loopSched_head s _ _ hg] at hy
        simp only [Option.mem_def, Option.some.injEq] at hy
        have := hinv.2 x hx
        linarith
      · rw [(loopSched_fst_empty_iff s _ _).mpr hg] at hy
        simp at hy
    · intro x hx
      by_cases he : r.1 = []
      · rw [he, List.append_nil] at hx
        have h2 := loopSched_snd_of_empty s (now + scheduleAheadTime) p.nextNoteTime he
        simp only [← hr] at h2
        rw [h2]
        exact hinv.2 x hx
      · rw [List.getLast?_append_of_ne_nil _ he] at hx
        exact loopSched_getLast s _ _ x hx
  · simpa [hp] using hinv

theorem schedInv_runWakes (p : LoopingPlayer) (wakes : List ℚ)
    (hinv : schedInv (p.buffer.duration - OVERLAP_DURATION) p) :
    schedInv ((runWakes p wakes).buffer.duration - OVERLAP_DURATION)
      (runWakes p wakes) ∧ (runWakes p wakes).buffer = p.buffer := by
  induction wakes generalizing p with
  | nil => exact ⟨hinv, rfl⟩
  | cons w ws ih =>
    have hb := schedulerStep_buffer p w
    have hstep := schedInv_schedulerStep p w hinv
    rw [← hb] at hstep
    have := ih (p.schedulerStep w) hstep
    unfold runWakes at this ⊢
    simp only [List.foldl_cons]
    exact ⟨this.1, this.2.trans hb⟩

-- ---------------------------------------------------------------------------
-- Helper lemmas: automation timeline walks
-- ---------------------------------------------------------------------------

/-- Unfolding equation for `valueFrom` on a cons cell. -/
theorem valueFrom_cons (pt pv : ℚ) (e : AEvent) (es : List AEvent) (t : ℚ) :
    valueFrom pt pv (e :: es) t =
      if t < e.time then
        match e with
        | .setValue _ _ => pv
        | .ramp te v => if te ≤ pt then v else pv + (v - pv) * (t - pt) / (te - pt)
      else valueFrom e.time e.val es t := rfl

theorem valueFrom_all_le (t : ℚ) :
    ∀ (es l : List AEvent) (pt pv : ℚ), (∀ e ∈ es, e.time ≤ t) →
      ∃ a b, valueFrom pt pv (es ++ l) t = valueFrom a b l t := by
  intro es
  induction es with
  | nil => exact fun l pt pv _ => ⟨pt, pv, rfl⟩
  | cons e es ih =>
    intro l pt pv h
    have he : e.time ≤ t := h e (List.mem_cons_self e es)
    rw [List.cons_append, valueFrom_cons, if_neg (not_lt.mpr he)]
    exact ih l e.time e.val (fun e' he' => h e' (List.mem_cons_of_mem e he'))

/-- After a `cancelScheduledValues tc` followed by `setValueAtTime vc tc`,
the value of the timeline at any `t ≥ tc` is determined by the appended
suffix alone, anchored at `(tc, vc)`. -/
theorem valueFrom_cancel_set (p : AudioParam) (tc vc t : ℚ) (l : List AEvent)
    (htc : tc ≤ t) (a b : ℚ) :
    valueFrom a b ((p.events.filter (fun e => e.time < tc)) ++
      (AEvent.setValue tc vc :: l)) t = valueFrom tc vc l t := by
  obtain ⟨a', b', hw⟩ := valueFrom_all_le t (p.events.filter (fun e => e.time < tc))
    (AEvent.setValue tc vc :: l) a b
    (fun e he => le_of_lt (lt_of_lt_of_le
      (of_decide_eq_true (List.mem_filter.mp he).2) htc))
  rw [hw, valueFrom_cons, if_neg (not_lt.mpr (by simpa [AEvent.time] using htc))]
  rfl

/-- A cancel + `setValueAtTime` with nothing after it holds its value from
its time on. -/
theorem valueAt_cancel_set_const (p : AudioParam) (tc vc t : ℚ) (h : tc ≤ t) :
    ((p.cancelScheduledValues tc).setValueAtTime vc tc).valueAt t = vc := by
  unfold AudioParam.valueAt AudioParam.cancelScheduledValues AudioParam.setValueAtTime
  simpa using valueFrom_cancel_set p tc vc t [] h 0 p.initialValue

/-- During a cancel–set–ramp sequence the value interpolates linearly from
the snapshot point `(tc, vc)` to the ramp end point `(te, target)`. -/
theorem valueAt_set_ramp_of_lt (p : AudioParam) (tc vc target te t : ℚ)
    (h0 : tc ≤ t) (hlt : t < te) :
    (((p.cancelScheduledValues tc).setValueAtTime vc tc).linearRampToValueAtTime
      target te).valueAt t = vc + (target - vc) * (t - tc) / (te - tc) := by
  unfold AudioParam.valueAt AudioParam.cancelScheduledValues AudioParam.setValueAtTime
    AudioParam.linearRampToValueAtTime
  simp only [List.append_assoc, List.cons_append, List.nil_append]
  rw [valueFrom_cancel_set p tc vc t [AEvent.ramp te target] h0]
  rw [valueFrom_cons, if_pos (by simpa [AEvent.time] using hlt)]
  show (if te ≤ tc then target else vc + (target - vc) * (t - tc) / (te - tc)) = _
  rw [if_neg (not_le.mpr (lt_of_le_of_lt h0 hlt))]

/-- After the ramp end of a cancel–set–ramp sequence the value is the ramp
target. -/
theorem valueAt_set_ramp_of_ge (p : AudioParam) (tc vc target te t : ℚ)
    (h0 : tc ≤ t) (hge : te ≤ t) :
    (((p.cancelScheduledValues tc).setValueAtTime vc tc).linearRampToValueAtTime
      target te).valueAt t = target := by
  unfold AudioParam.valueAt AudioParam.cancelScheduledValues AudioParam.setValueAtTime
    AudioParam.linearRampToValueAtTime
  simp only [List.append_assoc, List.cons_append, List.nil_append]
  rw [valueFrom_cancel_set p tc vc t [AEvent.ramp te target] h0]
  rw [valueFrom_cons, if_neg (not_lt.mpr (by simpa [AEvent.time] using hge))]
  rfl

/-- In-flight value of `rampTo`: linear interpolation from the value
snapshot taken at call time towards the target. -/
theorem valueAt_rampTo_of_lt (p : AudioParam) (now target dur t : ℚ)
    (h0 : now ≤ t) (hlt : t < now + dur) :
    (p.rampTo now target dur).valueAt t =
      p.valueAt now + (target - p.valueAt now) * (t - now) / dur := by
  have h := valueAt_set_ramp_of_lt p now (p.valueAt now) target (now + dur) t h0 hlt
  have hd : now + dur - now = dur := by ring
  rw [hd] at h
  exact h

/-- After its end time, a `rampTo` has settled at the target. -/
theorem valueAt_rampTo_of_ge (p : AudioParam) (now target dur t : ℚ)
    (h0 : now ≤ t) (hge : now + dur ≤ t) :
    (p.rampTo now target dur).valueAt t = target :=
  valueAt_set_ramp_of_ge p now (p.valueAt now) target (now + dur) t h0 hge

/-- The events of `rampTo`, spelled out. -/
theorem rampTo_events (p : AudioParam) (now target dur : ℚ) :
    (p.rampTo now target dur).events =
      (p.events.filter (fun e => e.time < now)) ++
        [AEvent.setValue now (p.valueAt now), AEvent.ramp (now + dur) target] := by
  unfold AudioParam.rampTo AudioParam.cancelScheduledValues AudioParam.setValueAtTime
    AudioParam.linearRampToValueAtTime
  simp

theorem lookup_updateLookup_self (m : List (String × α)) (k : String) (f : α → α) :
    (updateLookup m k f).lookup k = (m.lookup k).map f := by
  induction m with
  | nil => rfl
  | cons kv m ih =>
    obtain ⟨a, v⟩ := kv
    simp only [updateLookup] at ih ⊢
    by_cases h : a = k
    · subst h
      simp [List.lookup_cons, ih]
    · simp [List.lookup_cons, beq_false_of_ne (Ne.symm h), h, ih]

theorem lookup_updateLookup_ne (m : List (String × α)) (k k' : String) (f : α → α)
    (h : k' ≠ k) : (updateLookup m k f).lookup k' = m.lookup k' := by
  induction m with
  | nil => rfl
  | cons kv m ih =>
    obtain ⟨a, v⟩ := kv
    simp only [updateLookup] at ih ⊢
    by_cases hk : a = k
    · subst hk
      simp [List.lookup_cons, beq_false_of_ne h, ih]
    · by_cases hk' : k' = a
      · subst hk'
        simp [List.lookup_cons, hk]
      · simp [List.lookup_cons, beq_false_of_ne hk', hk, ih]

theorem lookup_map_keyed (m : List (String × α)) (f : String → α → β) (k : String) :
    (m.map (fun kv => (kv.1, f kv.1 kv.2))).lookup k = (m.lookup k).map (f k) := by
  induction m with
  | nil => rfl
  | cons kv m ih =>
    obtain ⟨a, v⟩ := kv
    by_cases h : k = a
    · subst h
      simp [List.lookup_cons]
    · simp [List.lookup_cons, beq_false_of_ne h, ih]

theorem lookup_isSome_of_mem (L : List SoundLayer) (f : SoundLayer → α)
    (l : SoundLayer) (h : l ∈ L) :
    ((L.map (fun x => (x.id, f x))).lookup l.id).isSome := by
  induction L with
  | nil => simp at h
  | cons a L ih =>
    by_cases he : l.id = a.id
    · simp [List.lookup_cons, he]
    · simp only [List.map_cons, List.lookup_cons, beq_false_of_ne he]
      rcases List.mem_cons.mp h with rfl | h'
      · exact absurd rfl he
      · exact ih h'

-- ---------------------------------------------------------------------------
-- C8
-- ---------------------------------------------------------------------------

/-- C8: For any buffer with duration ≤ the overlap (0.1 s), and likewise
whenever the player is already scheduling, `LoopingPlayer.start()` is a
no-op: the player state is unchanged — no segments are enqueued and no
timer is started — and the call is total (it cannot crash). -/
theorem c8_start_noop (p : LoopingPlayer) (now : ℚ) :
    (p.buffer.duration ≤ OVERLAP_DURATION → p.start now = p) ∧
    (p.isPlaying = true → p.start now = p) := by
  constructor
  · intro h
    simp [LoopingPlayer.start, h]
  · intro h
    simp [LoopingPlayer.start, h]

/-- Witness for C8 at a concrete too-short buffer (duration exactly the
overlap). -/
theorem c8_start_noop_witness :
    (mkLoopingPlayer ⟨1, 1, 10⟩ 0).buffer.duration ≤ OVERLAP_DURATION ∧
    (mkLoopingPlayer ⟨1, 1, 10⟩ 0).start 0 = mkLoopingPlayer ⟨1, 1, 10⟩ 0 :=
  ⟨by norm_num [mkLoopingPlayer, AudioBuffer.duration, OVERLAP_DURATION],
   (c8_start_noop (mkLoopingPlayer ⟨1, 1, 10⟩ 0) 0).1
     (by norm_num [mkLoopingPlayer, AudioBuffer.duration, OVERLAP_DURATION])⟩

-- ---------------------------------------------------------------------------
-- C7
-- ---------------------------------------------------------------------------

/-- C7 (counterexample): a call to `initializeAudio` made while the
engine is still Loading (the first call's loads have not settled, so
`isInitialized` is still false) is NOT a no-op: the re-entrant call runs
the whole initialization again and creates a second audio context. -/
theorem c7_loading_not_guarded :
    (initStart (mkEngine "a" []) 44100 [⟨"a", "srcA"⟩] "a" 1).isLoading = true ∧
    (initStart (mkEngine "a" []) 44100 [⟨"a", "srcA"⟩] "a" 1).isInitialized = false ∧
    initializeAudio (initStart (mkEngine "a" []) 44100 [⟨"a", "srcA"⟩] "a" 1)
        0 44100 [⟨"a", "srcA"⟩] [] "a" 1 (fun _ => LoadResult.decodeError) ≠
      initStart (mkEngine "a" []) 44100 [⟨"a", "srcA"⟩] "a" 1 :=
  ⟨rfl, rfl, by decide⟩

/-- C7 (amended): `initializeAudio` guards re-entrancy only on the Ready
state: a call made while the engine is already initialized
(`isInitialized = true`) is a no-op; the Loading phase is not guarded. -/
theorem c7_ready_noop (e : AudioEngine) (now sampleRate : ℚ) (themes : List Theme)
    (allLayers : List SoundLayer) (initialThemeId : String) (initialMainVolume : ℚ)
    (outcomes : String → LoadResult) (h : e.isInitialized = true) :
    initializeAudio e now sampleRate themes allLayers initialThemeId
      initialMainVolume outcomes = e := by
  unfold initializeAudio
  rw [if_pos h]

/-- Witness for C7's amended theorem at a concrete initialized engine. -/
theorem c7_ready_noop_witness :
    ({ mkEngine "a" [] with isInitialized := true } : AudioEngine).isInitialized
        = true ∧
    initializeAudio { mkEngine "a" [] with isInitialized := true } 0 44100 [] []
        "a" 1 (fun _ => LoadResult.decodeError) =
      { mkEngine "a" [] with isInitialized := true } :=
  ⟨rfl, c7_ready_noop _ 0 44100 [] [] "a" 1 (fun _ => LoadResult.decodeError) rfl⟩

-- ---------------------------------------------------------------------------
-- C6
-- ---------------------------------------------------------------------------

/-- C6: the layer loader never fails outward.  Any failed outcome (fetch
error, non-2xx HTTP status, decode error) logs a warning and stores the
2-second silent buffer at the engine's sample rate; a successful decode
stores the decoded buffer; initialization always completes regardless of
the outcomes, and afterwards every layer asset has a buffer. -/
theorem c6_loader_fallback (sr : ℚ) (hsr : 0 < sr) :
    (∀ r : LoadResult, (∀ b, r ≠ LoadResult.ok b) →
      loadLayerBuffer sr r = (createSilentAudioBuffer sr 2, true) ∧
      (loadLayerBuffer sr r).1.duration = 2 ∧
      (loadLayerBuffer sr r).1.sampleRate = sr) ∧
    (∀ b, loadLayerBuffer sr (LoadResult.ok b) = (b, false)) ∧
    (∀ (e : AudioEngine) (now : ℚ) (allLayers : List SoundLayer)
        (outcomes : String → LoadResult),
      (initFinish e now allLayers outcomes).isInitialized = true ∧
      ∀ l ∈ allLayers,
        ((initFinish e now allLayers outcomes).layerBuffers.lookup l.id).isSome) := by
  refine ⟨?_, fun b => rfl, ?_⟩
  · intro r hr
    have hdur : (createSilentAudioBuffer sr 2).duration = 2 := by
      unfold createSilentAudioBuffer AudioBuffer.duration
      field_simp
    cases r with
    | ok b => exact absurd rfl (hr b)
    | fetchError => exact ⟨rfl, hdur, rfl⟩
    | httpError s => exact ⟨rfl, hdur, rfl⟩
    | decodeError => exact ⟨rfl, hdur, rfl⟩
  · intro e now allLayers outcomes
    constructor
    · rfl
    · intro l hl
      unfold initFinish
      exact lookup_isSome_of_mem allLayers
        (fun l' => (loadLayerBuffer e.sampleRate (outcomes l'.id)).1) l hl

/-- Witness for C6 at a concrete sample rate and failure outcome. -/
theorem c6_loader_fallback_witness :
    (0 : ℚ) < 48000 ∧
    loadLayerBuffer 48000 LoadResult.fetchError =
      (createSilentAudioBuffer 48000 2, true) :=
  ⟨by norm_num,
   ((c6_loader_fallback 48000 (by norm_num)).1 LoadResult.fetchError
     (fun b h => LoadResult.noConfusion h)).1⟩

-- ---------------------------------------------------------------------------
-- C9
-- ---------------------------------------------------------------------------

/-- C9 (counterexample): an operation called after `initialize()` has
begun but before it has completed is not a no-op: during the loading
window the audio context and master gain already exist, so `toggleMute`
mutates the engine state. -/
theorem c9_midinit_not_noop :
    (initStart (mkEngine "a" []) 44100 [⟨"a", "srcA"⟩] "a" 1).isInitialized
        = false ∧
    toggleMute (initStart (mkEngine "a" []) 44100 [⟨"a", "srcA"⟩] "a" 1) 0 ≠
      initStart (mkEngine "a" []) 44100 [⟨"a", "srcA"⟩] "a" 1 :=
  ⟨rfl, by decide⟩

/-- C9 (amended): every public engine operation (`selectTheme`,
`setLayerVolume`, `setMainVolume`, `toggleMute`, `resetAndPlayTheme`)
called before `initialize()` has begun (no audio context yet), or at any
point after `cleanupAudio`, is a silent no-op: it never throws (the
operations are total) and changes no engine state. -/
theorem c9_lifecycle_noop (e : AudioEngine) (now t1 tv v d : ℚ) (tid lid : String)
    (tidOpt : Option String) (nls : List String) (nlv : List (String × ℚ)) :
    (e.ctxPresent = false →
      selectTheme e now tid tv = e ∧
      setLayerVolume e now lid v d = e ∧
      setMainVolume e now v d tidOpt = e ∧
      toggleMute e now = e ∧
      resetAndPlayTheme e now t1 tid nls v nlv = e) ∧
    (selectTheme (cleanupAudio e) now tid tv = cleanupAudio e ∧
      setLayerVolume (cleanupAudio e) now lid v d = cleanupAudio e ∧
      setMainVolume (cleanupAudio e) now v d tidOpt = cleanupAudio e ∧
      toggleMute (cleanupAudio e) now = cleanupAudio e ∧
      resetAndPlayTheme (cleanupAudio e) now t1 tid nls v nlv = cleanupAudio e) := by
  have key : ∀ e' : AudioEngine, e'.ctxPresent = false →
      selectTheme e' now tid tv = e' ∧
      setLayerVolume e' now lid v d = e' ∧
      setMainVolume e' now v d tidOpt = e' ∧
      toggleMute e' now = e' ∧
      resetAndPlayTheme e' now t1 tid nls v nlv = e' := by
    intro e' h
    refine ⟨?_, ?_, ?_, ?_, ?_⟩
    · simp [selectTheme, h]
    · simp [setLayerVolume, h]
    · simp [setMainVolume, h]
    · unfold toggleMute
      cases e'.masterGain with
      | none => rfl
      | some g => simp [h]
    · unfold resetAndPlayTheme
      cases e'.masterGain with
      | none => rfl
      | some g => simp [h]
  exact ⟨key e, key (cleanupAudio e) rfl⟩

/-- Witness for C9's amended theorem at a concrete pre-initialization
engine (fresh state: no audio context). -/
theorem c9_lifecycle_noop_witness :
    (mkEngine "a" []).ctxPresent = false ∧
    toggleMute (mkEngine "a" []) 0 = mkEngine "a" [] :=
  ⟨rfl,
   ((c9_lifecycle_noop (mkEngine "a" []) 0 0 0 0 0 "b" "rain" none [] []).1
     rfl).2.2.2.1⟩

-- ---------------------------------------------------------------------------
-- C5
-- ---------------------------------------------------------------------------

/-- C5 (counterexample): double `toggleMute` does not in general return
the master gain to its pre-mute value.  On an initialized engine whose
master gain currently sits at 1/2 (for example mid fade-in), the unmute
ramp targets the constant 1, so after the ramp completes the master gain
is 1 ≠ 1/2. -/
theorem c5_double_toggle_counterexample :
    masterValueAt
      (toggleMute
        (toggleMute
          { mkEngine "a" [] with
              ctxPresent := true
              isInitialized := true
              masterGain := some ⟨1 / 2, []⟩ } 0) 0) (7 / 4) ≠
    masterValueAt
      { mkEngine "a" [] with
          ctxPresent := true
          isInitialized := true
          masterGain := some ⟨1 / 2, []⟩ } 0 := by
  have hval : masterValueAt
      (toggleMute
        (toggleMute
          { mkEngine "a" [] with
              ctxPresent := true
              isInitialized := true
              masterGain := some ⟨1 / 2, []⟩ } 0) 0) (7 / 4) = 1 := by
    show (((⟨1 / 2, []⟩ : AudioParam).rampTo 0 0 (FADE_TIME / 2)).rampTo 0 1
      (FADE_TIME / 2)).valueAt (7 / 4) = 1
    exact valueAt_rampTo_of_ge _ 0 1 (FADE_TIME / 2) (7 / 4) (by norm_num)
      (by norm_num [FADE_TIME])
  have hrhs : masterValueAt
      { mkEngine "a" [] with
          ctxPresent := true
          isInitialized := true
          masterGain := some ⟨1 / 2, []⟩ } 0 = 1 / 2 := rfl
  rw [hval, hrhs]
  norm_num

/-- C5 (amended): `toggleMute()` twice restores the muted flag and leaves
every per-layer and per-theme gain value untouched; the master gain ramps
back to its pre-mute steady target (1 when unmuted, 0 when muted), so
whenever the pre-mute master value equals that steady target — in
particular in steady state, with no master ramp in flight — the double
toggle restores the pre-mute master value once the second ramp
completes. -/
theorem c5_double_toggle (e : AudioEngine) (g : AudioParam) (t1 t2 t : ℚ)
    (hg : e.masterGain = some g) (hc : e.ctxPresent = true)
    (hsteady : g.valueAt t1 = if e.isMuted then 0 else 1)
    (h12 : t1 ≤ t2) (ht : t2 + FADE_TIME / 2 ≤ t) :
    (toggleMute (toggleMute e t1) t2).isMuted = e.isMuted ∧
    (toggleMute (toggleMute e t1) t2).themeGains = e.themeGains ∧
    (toggleMute (toggleMute e t1) t2).layerPlayers = e.layerPlayers ∧
    masterValueAt (toggleMute (toggleMute e t1) t2) t = masterValueAt e t1 := by
  have h2t : t2 ≤ t := by
    have : (0:ℚ) < FADE_TIME / 2 := by norm_num [FADE_TIME]
    linarith
  have e1eq : toggleMute e t1 =
      { e with
          isMuted := !e.isMuted
          masterGain :=
            some (g.rampTo t1 (if !e.isMuted then 0 else 1) (FADE_TIME / 2)) } := by
    unfold toggleMute
    rw [hg]
    cases hm : e.isMuted <;> simp [hc, hm]
  rw [e1eq]
  have e2eq : toggleMute
      { e with
          isMuted := !e.isMuted
          masterGain :=
            some (g.rampTo t1 (if !e.isMuted then 0 else 1) (FADE_TIME / 2)) } t2 =
      { e with
          isMuted := e.isMuted
          masterGain :=
            some ((g.rampTo t1 (if !e.isMuted then 0 else 1) (FADE_TIME / 2)).rampTo
              t2 (if e.isMuted then 0 else 1) (FADE_TIME / 2)) } := by
    unfold toggleMute
    cases hm : e.isMuted <;> simp [hc, hm]
  rw [e2eq]
  refine ⟨rfl, rfl, rfl, ?_⟩
  show ((g.rampTo t1 (if !e.isMuted then 0 else 1) (FADE_TIME / 2)).rampTo t2
      (if e.isMuted then 0 else 1) (FADE_TIME / 2)).valueAt t = masterValueAt e t1
  rw [valueAt_rampTo_of_ge _ t2 _ (FADE_TIME / 2) t h2t ht]
  show (if e.isMuted then (0:ℚ) else 1) = masterValueAt e t1
  rw [masterValueAt, hg]
  exact hsteady.symm

/-- Witness for C5's amended theorem: steady-state unmuted engine with
master gain at 1; the double toggle leaves the muted flag unchanged. -/
theorem c5_double_toggle_witness :
    (toggleMute
      (toggleMute
        { mkEngine "a" [] with
            ctxPresent := true
            isInitialized := true
            masterGain := some ⟨1, []⟩ } 0) 0).isMuted =
      ({ mkEngine "a" [] with
          ctxPresent := true
          isInitialized := true
          masterGain := some ⟨1, []⟩ } : AudioEngine).isMuted :=
  (c5_double_toggle _ ⟨1, []⟩ 0 0 2 rfl rfl (by decide) le_rfl
    (by norm_num [FADE_TIME])).1

-- ---------------------------------------------------------------------------
-- C4
-- ---------------------------------------------------------------------------

/-- C4: `selectTheme(themeId, targetVolume)` with the already-active
theme id schedules no ramps and changes nothing; otherwise it ramps the
previously active theme's gain from its current value to 0 over the
crossfade duration `FADE_TIME` (3.5 s), ramps the new theme's gain from
an explicitly set value of 0 — not its possibly-stale prior value — to
`targetVolume` over the same duration, and updates the active theme id
immediately. -/
theorem c4_selectTheme (e : AudioEngine) (now tv : ℚ) (tid : String)
    (go gn : AudioParam) (hc : e.ctxPresent = true)
    (hne : tid ≠ e.activeThemeId)
    (hgo : e.themeGains.lookup e.activeThemeId = some go)
    (hgn : e.themeGains.lookup tid = some gn) :
    (∀ (e' : AudioEngine) (v' : ℚ), selectTheme e' now e'.activeThemeId v' = e') ∧
    (selectTheme e now tid tv).activeThemeId = tid ∧
    (∀ g', (selectTheme e now tid tv).themeGains.lookup tid = some g' →
      g'.valueAt now = 0 ∧
      (∀ t, now ≤ t → t < now + FADE_TIME →
        g'.valueAt t = 0 + (tv - 0) * (t - now) / FADE_TIME) ∧
      (∀ t, now + FADE_TIME ≤ t → g'.valueAt t = tv)) ∧
    (∀ g', (selectTheme e now tid tv).themeGains.lookup e.activeThemeId = some g' →
      (∀ t, now ≤ t → t < now + FADE_TIME →
        g'.valueAt t = go.valueAt now + (0 - go.valueAt now) * (t - now) / FADE_TIME) ∧
      (∀ t, now + FADE_TIME ≤ t → g'.valueAt t = 0)) := by
  have hFT : (0:ℚ) < FADE_TIME := by norm_num [FADE_TIME]
  have hsel : selectTheme e now tid tv =
      { e with
          themeGains := updateLookup
            (updateLookup e.themeGains e.activeThemeId
              (fun g => g.rampTo now 0 FADE_TIME))
            tid
            (fun g => ((g.cancelScheduledValues now).setValueAtTime 0
              now).linearRampToValueAtTime tv (now + FADE_TIME))
          activeThemeId := tid } := by
    unfold selectTheme
    simp [hc, hne]
  have hgains : (selectTheme e now tid tv).themeGains =
      updateLookup
        (updateLookup e.themeGains e.activeThemeId
          (fun g => g.rampTo now 0 FADE_TIME))
        tid
        (fun g => ((g.cancelScheduledValues now).setValueAtTime 0
          now).linearRampToValueAtTime tv (now + FADE_TIME)) := by
    rw [hsel]
  have hlook_tid : (selectTheme e now tid tv).themeGains.lookup tid =
      some (((gn.cancelScheduledValues now).setValueAtTime 0
        now).linearRampToValueAtTime tv (now + FADE_TIME)) := by
    rw [hgains, lookup_updateLookup_self, lookup_updateLookup_ne _ _ _ _ hne, hgn]
    rfl
  have hlook_act : (selectTheme e now tid tv).themeGains.lookup e.activeThemeId =
      some (go.rampTo now 0 FADE_TIME) := by
    rw [hgains, lookup_updateLookup_ne _ _ _ _ (Ne.symm hne),
      lookup_updateLookup_self, hgo]
    rfl
  refine ⟨?_, ?_, ?_, ?_⟩
  · intro e' v'
    simp [selectTheme]
  · rw [hsel]
  · intro g' hg'
    rw [hlook_tid] at hg'
    injection hg' with hg'
    subst hg'
    have hdenom : now + FADE_TIME - now = FADE_TIME := by ring
    refine ⟨?_, ?_, ?_⟩
    · rw [valueAt_set_ramp_of_lt gn now 0 tv (now + FADE_TIME) now le_rfl
        (by linarith)]
      ring
    · intro t ht0 ht1
      rw [valueAt_set_ramp_of_lt gn now 0 tv (now + FADE_TIME) t ht0 ht1, hdenom]
    · intro t ht
      exact valueAt_set_ramp_of_ge gn now 0 tv (now + FADE_TIME) t
        (by linarith) ht
  · intro g' hg'
    rw [hlook_act] at hg'
    injection hg' with hg'
    subst hg'
    refine ⟨?_, ?_⟩
    · intro t ht0 ht1
      exact valueAt_rampTo_of_lt go now 0 FADE_TIME t ht0 ht1
    · intro t ht
      exact valueAt_rampTo_of_ge go now 0 FADE_TIME t (by linarith) ht

/-- Witness for C4 at a concrete two-theme engine: selecting theme "b"
starts the new theme's gain at an explicit 0. -/
theorem c4_selectTheme_witness :
    ((((⟨7, []⟩ : AudioParam).cancelScheduledValues 0).setValueAtTime 0
      0).linearRampToValueAtTime (3 / 4) (0 + FADE_TIME)).valueAt 0 = 0 :=
  ((c4_selectTheme
    { mkEngine "a" [] with
        ctxPresent := true
        themeGains := [("a", ⟨1, []⟩), ("b", ⟨7, []⟩)] } 0 (3 / 4) "b"
    ⟨1, []⟩ ⟨7, []⟩ rfl (by decide) rfl rfl).2.2.1
    ((((⟨7, []⟩ : AudioParam).cancelScheduledValues 0).setValueAtTime 0
      0).linearRampToValueAtTime (3 / 4) (0 + FADE_TIME))
    rfl).1

-- ---------------------------------------------------------------------------
-- C3
-- ---------------------------------------------------------------------------

/-- C3: for any gain parameter, two `rampTo` requests in quick succession
(the second issued before the first ramp completes) leave exactly one
effective ramp — the second: the pending automation is cancelled (the
only event left after `t2` is the second ramp), the new ramp starts from
the gain's value at cancellation time — the in-flight interpolated value
of the first ramp, not its original start value or target — and the
value is then linearly interpolated to the new target over the requested
duration. -/
theorem c3_rampTo_cancel_replace (p : AudioParam) (t1 t2 v1 v2 d1 d2 : ℚ)
    (h12 : t1 ≤ t2) (hinc : t2 < t1 + d1) (hd2 : 0 < d2) :
    ((p.rampTo t1 v1 d1).valueAt t2 =
      p.valueAt t1 + (v1 - p.valueAt t1) * (t2 - t1) / d1) ∧
    (∀ t, t2 ≤ t → t < t2 + d2 →
      ((p.rampTo t1 v1 d1).rampTo t2 v2 d2).valueAt t =
        (p.rampTo t1 v1 d1).valueAt t2 +
          (v2 - (p.rampTo t1 v1 d1).valueAt t2) * (t - t2) / d2) ∧
    (∀ t, t2 + d2 ≤ t → ((p.rampTo t1 v1 d1).rampTo t2 v2 d2).valueAt t = v2) ∧
    ((p.rampTo t1 v1 d1).rampTo t2 v2 d2).events.filter
        (fun e => decide (t2 < e.time)) = [AEvent.ramp (t2 + d2) v2] := by
  refine ⟨valueAt_rampTo_of_lt p t1 v1 d1 t2 h12 hinc, ?_, ?_, ?_⟩
  · intro t ht0 ht1
    exact valueAt_rampTo_of_lt (p.rampTo t1 v1 d1) t2 v2 d2 t ht0 ht1
  · intro t ht
    exact valueAt_rampTo_of_ge (p.rampTo t1 v1 d1) t2 v2 d2 t (by linarith) ht
  · rw [rampTo_events, List.filter_append]
    have h1 : ((p.rampTo t1 v1 d1).events.filter
        (fun e => decide (e.time < t2))).filter (fun e => decide (t2 < e.time)) = [] := by
      rw [List.filter_filter]
      refine List.filter_eq_nil_iff.mpr ?_
      intro e he
      simp only [Bool.and_eq_true, decide_eq_true_eq, not_and]
      intro hgt hlt
      linarith
    rw [h1, List.nil_append]
    have h2 : ¬ (t2 < (AEvent.setValue t2
        ((p.rampTo t1 v1 d1).valueAt t2)).time) := by
      simp [AEvent.time]
    have h3 : t2 < (AEvent.ramp (t2 + d2) v2).time := by
      simp [AEvent.time]
      linarith
    simp [h2, h3]

/-- Witness for C3: a ramp from 0 towards 1 over one second, interrupted
at its midpoint by a ramp towards 0, restarts from the in-flight value
1/2 — distinct from both the first ramp's start 0 and its target 1. -/
theorem c3_rampTo_cancel_replace_witness :
    ((⟨0, []⟩ : AudioParam).rampTo 0 1 1).valueAt (1 / 2) =
      (⟨0, []⟩ : AudioParam).valueAt 0 +
        (1 - (⟨0, []⟩ : AudioParam).valueAt 0) * (1 / 2 - 0) / 1 :=
  (c3_rampTo_cancel_replace ⟨0, []⟩ 0 (1 / 2) 1 0 1 1 (by norm_num)
    (by norm_num) (by norm_num)).1

-- ---------------------------------------------------------------------------
-- C2
-- ---------------------------------------------------------------------------

theorem schedInv_start_fresh (p : LoopingPlayer) (t0 : ℚ)
    (hempty : p.scheduled = []) :
    schedInv ((p.start t0).buffer.duration - OVERLAP_DURATION) (p.start t0) ∧
      (p.start t0).buffer = p.buffer := by
  have htriv : ∀ q : LoopingPlayer, q.scheduled = [] →
      schedInv (q.buffer.duration - OVERLAP_DURATION) q := by
    intro q hq
    constructor
    · rw [hq]
      exact List.chain'_nil
    · intro x hx
      rw [hq] at hx
      simp at hx
  unfold LoopingPlayer.start
  by_cases hguard :
      (p.isPlaying || decide (p.buffer.duration ≤ OVERLAP_DURATION)) = true
  · rw [if_pos hguard]
    exact ⟨htriv p hempty, rfl⟩
  · rw [if_neg hguard]
    have hinv' := htriv { p with isPlaying := true, nextNoteTime := t0 + 1 / 10 }
      hempty
    refine ⟨schedInv_schedulerStep _ t0 hinv', schedulerStep_buffer _ t0⟩

/-- C2: for every layer whose buffer duration exceeds the overlap
(0.1 s), over any run of scheduler wake-ups the scheduled start times of
consecutive segments differ by exactly `bufferDuration − overlap`, and
on each wake-up a segment is enqueued precisely while
`nextStartTime < now + scheduleAheadTime` (0.1 s): every enqueued
segment's start time is below that deadline, afterwards `nextStartTime`
is at or past the deadline, the first segment enqueued starts exactly at
the pending `nextStartTime`, and nothing is enqueued when
`nextStartTime` is already past the deadline. -/
theorem c2_scheduler_gapless :
    (∀ (buf : AudioBuffer) (g t0 : ℚ) (wakes : List ℚ),
      OVERLAP_DURATION < buf.duration →
      List.Chain' (fun a b => b - a = buf.duration - OVERLAP_DURATION)
        (runWakes ((mkLoopingPlayer buf g).start t0) wakes).scheduled) ∧
    (∀ (p : LoopingPlayer) (now : ℚ), p.isPlaying = true →
      OVERLAP_DURATION < p.buffer.duration →
      ((p.schedulerStep now).scheduled = p.scheduled ++
        (loopSched (p.buffer.duration - OVERLAP_DURATION)
          (now + scheduleAheadTime) p.nextNoteTime).1 ∧
      (∀ x ∈ (loopSched (p.buffer.duration - OVERLAP_DURATION)
          (now + scheduleAheadTime) p.nextNoteTime).1,
        x < now + scheduleAheadTime) ∧
      now + scheduleAheadTime ≤ (p.schedulerStep now).nextNoteTime ∧
      (p.nextNoteTime < now + scheduleAheadTime →
        (loopSched (p.buffer.duration - OVERLAP_DURATION)
          (now + scheduleAheadTime) p.nextNoteTime).1.head? =
          some p.nextNoteTime) ∧
      (now + scheduleAheadTime ≤ p.nextNoteTime →
        (loopSched (p.buffer.duration - OVERLAP_DURATION)
          (now + scheduleAheadTime) p.nextNoteTime).1 = []))) := by
  constructor
  · intro buf g t0 wakes hd
    obtain ⟨hinv0, hbuf0⟩ := schedInv_start_fresh (mkLoopingPlayer buf g) t0 rfl
    obtain ⟨hinv, hbuf⟩ :=
      schedInv_runWakes ((mkLoopingPlayer buf g).start t0) wakes hinv0
    have hb : (runWakes ((mkLoopingPlayer buf g).start t0) wakes).buffer = buf :=
      hbuf.trans hbuf0
    rw [hb] at hinv
    exact hinv.1
  · intro p now hp hd
    have hstep : 0 < p.buffer.duration - OVERLAP_DURATION := by linarith
    have hred : p.schedulerStep now =
        { p with
            scheduled := p.scheduled ++
              (loopSched (p.buffer.duration - OVERLAP_DURATION)
                (now + scheduleAheadTime) p.nextNoteTime).1
            nextNoteTime := (loopSched (p.buffer.duration - OVERLAP_DURATION)
              (now + scheduleAheadTime) p.nextNoteTime).2
            timerId := some 0 } := by
      unfold LoopingPlayer.schedulerStep
      rw [if_pos hp]
    rw [hred]
    refine ⟨rfl, ?_, ?_, ?_, ?_⟩
    · exact loopSched_mem_lt _ _ _
    · exact loopSched_snd_ge _ _ hstep _
    · intro h
      exact loopSched_head _ _ _ ⟨hstep, h⟩
    · intro h
      exact (loopSched_fst_empty_iff _ _ _).mpr
        (fun hcon => absurd hcon.2 (not_lt.mpr h))

/-- Witness for C2 at a concrete buffer (duration 2 s) and two wake-ups. -/
theorem c2_scheduler_gapless_witness :
    List.Chain'
      (fun a b => b - a = (⟨1, 2, 1⟩ : AudioBuffer).duration - OVERLAP_DURATION)
      (runWakes ((mkLoopingPlayer ⟨1, 2, 1⟩ 1).start 0) [0, 2]).scheduled :=
  c2_scheduler_gapless.1 ⟨1, 2, 1⟩ 1 0 [0, 2]
    (by norm_num [AudioBuffer.duration, OVERLAP_DURATION])

-- ---------------------------------------------------------------------------
-- resetAndPlayTheme helpers (shared by the reset claims)
-- ---------------------------------------------------------------------------

theorem resetPhase2_themeGains_lookup (e : AudioEngine) (now : ℚ) (nid : String)
    (nls : List String) (nmv : ℚ) (nlv : List (String × ℚ))
    (hcl : e.ctxClosed = false) (id : String) :
    (resetPhase2 e now nid nls nmv nlv).themeGains.lookup id =
      (e.themeGains.lookup id).map
        (fun g => (g.cancelScheduledValues now).setValueAtTime
          (themeTarget nid nmv id) now) := by
  unfold resetPhase2
  rw [if_neg (by simp [hcl])]
  exact lookup_map_keyed e.themeGains
    (fun i g => (g.cancelScheduledValues now).setValueAtTime
      (themeTarget nid nmv i) now) id

theorem resetPhase2_layerPlayers_lookup (e : AudioEngine) (now : ℚ) (nid : String)
    (nls : List String) (nmv : ℚ) (nlv : List (String × ℚ))
    (hcl : e.ctxClosed = false) (id : String) :
    (resetPhase2 e now nid nls nmv nlv).layerPlayers.lookup id =
      (e.layerPlayers.lookup id).map
        (fun p => { p with gainNode := (p.gainNode.cancelScheduledValues
          now).setValueAtTime (layerTarget nls nlv id) now }) := by
  unfold resetPhase2
  rw [if_neg (by simp [hcl])]
  exact lookup_map_keyed e.layerPlayers
    (fun i p => { p with gainNode := (p.gainNode.cancelScheduledValues
      now).setValueAtTime (layerTarget nls nlv i) now }) id

theorem resetPhase2_masterGain (e : AudioEngine) (now : ℚ) (nid : String)
    (nls : List String) (nmv : ℚ) (nlv : List (String × ℚ))
    (hcl : e.ctxClosed = false) :
    (resetPhase2 e now nid nls nmv nlv).masterGain =
      e.masterGain.map (fun g => g.linearRampToValueAtTime 1
        (now + fadeInDuration)) := by
  unfold resetPhase2
  rw [if_neg (by simp [hcl])]

theorem resetPhase2_activeThemeId (e : AudioEngine) (now : ℚ) (nid : String)
    (nls : List String) (nmv : ℚ) (nlv : List (String × ℚ))
    (hcl : e.ctxClosed = false) :
    (resetPhase2 e now nid nls nmv nlv).activeThemeId = nid := by
  unfold resetPhase2
  rw [if_neg (by simp [hcl])]

theorem resetAndPlayTheme_eq_phases (e : AudioEngine) (g : AudioParam)
    (t0 t1 : ℚ) (nid : String) (nls : List String) (nmv : ℚ)
    (nlv : List (String × ℚ)) (hc : e.ctxPresent = true)
    (hg : e.masterGain = some g) :
    resetAndPlayTheme e t0 t1 nid nls nmv nlv =
      resetPhase2 { e with masterGain := some (g.rampTo t0 0 fadeOutDuration) }
        t1 nid nls nmv nlv := by
  unfold resetAndPlayTheme
  rw [hg]
  simp [hc]

/-- The master gain timeline after a full `resetAndPlayTheme`, for any
`t ≥ t0`: the walk reduces to the three appended events (snapshot at
`t0`, fade-out ramp ending at `t0 + 0.5`, fade-in ramp ending at
`t1 + 1.5`). -/
theorem reset_master_valueAt (g : AudioParam) (t0 t1 t : ℚ) (h0 : t0 ≤ t) :
    ((g.rampTo t0 0 fadeOutDuration).linearRampToValueAtTime 1
        (t1 + fadeInDuration)).valueAt t =
      valueFrom t0 (g.valueAt t0)
        [AEvent.ramp (t0 + fadeOutDuration) 0,
         AEvent.ramp (t1 + fadeInDuration) 1] t := by
  have hev : ((g.rampTo t0 0 fadeOutDuration).linearRampToValueAtTime 1
      (t1 + fadeInDuration)).events =
      (g.events.filter (fun e => e.time < t0)) ++
        (AEvent.setValue t0 (g.valueAt t0) ::
          [AEvent.ramp (t0 + fadeOutDuration) 0,
           AEvent.ramp (t1 + fadeInDuration) 1]) := by
    unfold AudioParam.rampTo AudioParam.cancelScheduledValues
      AudioParam.setValueAtTime AudioParam.linearRampToValueAtTime
    simp
  show valueFrom 0 _ _ t = _
  rw [hev]
  have hini : ((g.rampTo t0 0 fadeOutDuration).linearRampToValueAtTime 1
      (t1 + fadeInDuration)).initialValue = g.initialValue := rfl
  exact valueFrom_cancel_set g t0 (g.valueAt t0) t
    [AEvent.ramp (t0 + fadeOutDuration) 0, AEvent.ramp (t1 + fadeInDuration) 1]
    h0 0 _

theorem valueFrom_fade_mid (v0 t0 ta tb t : ℚ) (h0 : t0 < ta) (ht0 : t0 ≤ t)
    (hlt : t < ta) :
    valueFrom t0 v0 [AEvent.ramp ta 0, AEvent.ramp tb 1] t =
      v0 + (0 - v0) * (t - t0) / (ta - t0) := by
  rw [valueFrom_cons, if_pos (by simpa [AEvent.time] using hlt)]
  show (if ta ≤ t0 then (0:ℚ) else v0 + (0 - v0) * (t - t0) / (ta - t0)) = _
  rw [if_neg (not_le.mpr h0)]

theorem valueFrom_fade_in (v0 t0 ta tb t : ℚ) (hta : ta ≤ t) (hab : ta < tb)
    (hlt : t < tb) :
    valueFrom t0 v0 [AEvent.ramp ta 0, AEvent.ramp tb 1] t =
      0 + (1 - 0) * (t - ta) / (tb - ta) := by
  rw [valueFrom_cons, if_neg (by simpa [AEvent.time] using not_lt.mpr hta)]
  rw [valueFrom_cons, if_pos (by simpa [AEvent.time] using hlt)]
  show (if tb ≤ ta then (1:ℚ) else 0 + (1 - 0) * (t - ta) / (tb - ta)) = _
  rw [if_neg (not_le.mpr hab)]

theorem valueFrom_fade_done (v0 t0 ta tb t : ℚ) (hta : ta ≤ t) (htb : tb ≤ t) :
    valueFrom t0 v0 [AEvent.ramp ta 0, AEvent.ramp tb 1] t = 1 := by
  rw [valueFrom_cons, if_neg (by simpa [AEvent.time] using not_lt.mpr hta)]
  rw [valueFrom_cons, if_neg (by simpa [AEvent.time] using not_lt.mpr htb)]
  rfl

-- ---------------------------------------------------------------------------
-- C1
-- ---------------------------------------------------------------------------

/-- C1: on an initialized engine `resetAndPlayTheme` follows the
two-phase sequence (with the timeout callback firing at
`t1 = t0 + fadeOutDuration`): (a) the master gain ramps linearly to 0
over the fixed 0.5 s fade-out and is 0 when it has elapsed; (b) the
synchronous phase touches no theme or layer gain node — the
reconfiguration lives only in the timeout callback, which runs once the
fade-out has elapsed; (c) at `t1` every theme gain and every layer gain
is reassigned instantaneously (a `setValueAtTime`, no ramp) to its new
target, holding that value from `t1` on; (d) only then does the master
gain ramp back to 1 over the longer 1.5 s fade-in; and the active theme
id becomes the new theme id. -/
theorem c1_reset_two_phase (e : AudioEngine) (g : AudioParam) (t0 : ℚ)
    (nid : String) (nls : List String) (nmv : ℚ) (nlv : List (String × ℚ))
    (hc : e.ctxPresent = true) (hcl : e.ctxClosed = false)
    (hg : e.masterGain = some g) :
    (∀ t, t0 ≤ t → t < t0 + fadeOutDuration →
      masterValueAt (resetAndPlayTheme e t0 (t0 + fadeOutDuration) nid nls nmv nlv)
          t = g.valueAt t0 + (0 - g.valueAt t0) * (t - t0) / fadeOutDuration) ∧
    masterValueAt (resetAndPlayTheme e t0 (t0 + fadeOutDuration) nid nls nmv nlv)
        (t0 + fadeOutDuration) = 0 ∧
    resetAndPlayTheme e t0 (t0 + fadeOutDuration) nid nls nmv nlv =
      resetPhase2 { e with masterGain := some (g.rampTo t0 0 fadeOutDuration) }
        (t0 + fadeOutDuration) nid nls nmv nlv ∧
    ({ e with masterGain := some (g.rampTo t0 0 fadeOutDuration) } :
        AudioEngine).themeGains = e.themeGains ∧
    ({ e with masterGain := some (g.rampTo t0 0 fadeOutDuration) } :
        AudioEngine).layerPlayers = e.layerPlayers ∧
    (∀ id g', (resetAndPlayTheme e t0 (t0 + fadeOutDuration) nid nls nmv
        nlv).themeGains.lookup id = some g' →
      ∀ t, t0 + fadeOutDuration ≤ t → g'.valueAt t = themeTarget nid nmv id) ∧
    (∀ id pl, (resetAndPlayTheme e t0 (t0 + fadeOutDuration) nid nls nmv
        nlv).layerPlayers.lookup id = some pl →
      ∀ t, t0 + fadeOutDuration ≤ t →
        pl.gainNode.valueAt t = layerTarget nls nlv id) ∧
    (∀ t, t0 + fadeOutDuration ≤ t → t < t0 + fadeOutDuration + fadeInDuration →
      masterValueAt (resetAndPlayTheme e t0 (t0 + fadeOutDuration) nid nls nmv nlv)
          t = (t - (t0 + fadeOutDuration)) / fadeInDuration) ∧
    (∀ t, t0 + fadeOutDuration + fadeInDuration ≤ t →
      masterValueAt (resetAndPlayTheme e t0 (t0 + fadeOutDuration) nid nls nmv nlv)
          t = 1) ∧
    (resetAndPlayTheme e t0 (t0 + fadeOutDuration) nid nls nmv
        nlv).activeThemeId = nid := by
  have hfod : (0:ℚ) < fadeOutDuration := by norm_num [fadeOutDuration]
  have hfid : (0:ℚ) < fadeInDuration := by norm_num [fadeInDuration]
  have hcl' : ({ e with masterGain := some (g.rampTo t0 0 fadeOutDuration) } :
      AudioEngine).ctxClosed = false := hcl
  have hphase := resetAndPlayTheme_eq_phases e g t0 (t0 + fadeOutDuration) nid nls
    nmv nlv hc hg
  have hmg : (resetAndPlayTheme e t0 (t0 + fadeOutDuration) nid nls nmv
      nlv).masterGain = some ((g.rampTo t0 0 fadeOutDuration).linearRampToValueAtTime
        1 (t0 + fadeOutDuration + fadeInDuration)) := by
    rw [hphase, resetPhase2_masterGain _ _ nid nls nmv nlv hcl']
    rfl
  have hmv : ∀ t, t0 ≤ t →
      masterValueAt (resetAndPlayTheme e t0 (t0 + fadeOutDuration) nid nls nmv nlv)
        t = valueFrom t0 (g.valueAt t0)
          [AEvent.ramp (t0 + fadeOutDuration) 0,
           AEvent.ramp (t0 + fadeOutDuration + fadeInDuration) 1] t := by
    intro t ht
    rw [masterValueAt, hmg]
    exact reset_master_valueAt g t0 (t0 + fadeOutDuration) t ht
  have hd1 : t0 + fadeOutDuration - t0 = fadeOutDuration := by ring
  have hd2 : t0 + fadeOutDuration + fadeInDuration - (t0 + fadeOutDuration) =
      fadeInDuration := by ring
  refine ⟨?_, ?_, hphase, rfl, rfl, ?_, ?_, ?_, ?_, ?_⟩
  · intro t ht0 hlt
    rw [hmv t ht0, valueFrom_fade_mid _ _ _ _ _ (by linarith) ht0 hlt, hd1]
  · rw [hmv _ (by linarith),
      valueFrom_fade_in _ _ _ _ _ le_rfl (by linarith) (by linarith)]
    simp
  · intro id g' hid t ht
    rw [hphase, resetPhase2_themeGains_lookup _ _ nid nls nmv nlv hcl' id] at hid
    obtain ⟨g0, hg0, hfg⟩ := Option.map_eq_some'.mp hid
    rw [← hfg]
    exact valueAt_cancel_set_const g0 (t0 + fadeOutDuration)
      (themeTarget nid nmv id) t ht
  · intro id pl hid t ht
    rw [hphase, resetPhase2_layerPlayers_lookup _ _ nid nls nmv nlv hcl' id] at hid
    obtain ⟨p0, hp0, hfp⟩ := Option.map_eq_some'.mp hid
    rw [← hfp]
    exact valueAt_cancel_set_const p0.gainNode (t0 + fadeOutDuration)
      (layerTarget nls nlv id) t ht
  · intro t ht0 hlt
    rw [hmv t (by linarith), valueFrom_fade_in _ _ _ _ _ ht0 (by linarith) hlt,
      hd2]
    ring
  · intro t ht
    rw [hmv t (by linarith), valueFrom_fade_done _ _ _ _ _ (by linarith) ht]
  · rw [hphase]
    exact resetPhase2_activeThemeId _ _ nid nls nmv nlv hcl'

/-- Witness for C1 at a concrete one-theme, one-layer engine. -/
theorem c1_reset_two_phase_witness :
    (resetAndPlayTheme
      { mkEngine "a" [] with
          ctxPresent := true
          isInitialized := true
          masterGain := some ⟨1, []⟩
          themeGains := [("a", ⟨1, []⟩), ("b", ⟨0, []⟩)]
          layerPlayers := [("rain", mkLoopingPlayer ⟨1, 2, 1⟩ (1 / 5))] }
      0 (0 + fadeOutDuration) "b" ["forest"] (7 / 10) [("forest", 1 / 2)]
      ).activeThemeId = "b" :=
  (c1_reset_two_phase
    { mkEngine "a" [] with
        ctxPresent := true
        isInitialized := true
        masterGain := some ⟨1, []⟩
        themeGains := [("a", ⟨1, []⟩), ("b", ⟨0, []⟩)]
        layerPlayers := [("rain", mkLoopingPlayer ⟨1, 2, 1⟩ (1 / 5))] }
    ⟨1, []⟩ 0 "b" ["forest"] (7 / 10) [("forest", 1 / 2)] rfl rfl
    rfl).2.2.2.2.2.2.2.2.2

-- ---------------------------------------------------------------------------
-- C10
-- ---------------------------------------------------------------------------

/-- C10: during `resetAndPlayTheme`'s silent reconfiguration phase the
reassignment is total, with defaults: every theme gain other than the
new theme's is set to 0; every layer listed in `newLayers` whose id is
absent from `newLayerVolumes` is set to the default 0.5; and every layer
not listed in `newLayers` is set to 0. -/
theorem c10_reset_defaults (e : AudioEngine) (g : AudioParam) (t0 t1 : ℚ)
    (nid : String) (nls : List String) (nmv : ℚ) (nlv : List (String × ℚ))
    (hc : e.ctxPresent = true) (hcl : e.ctxClosed = false)
    (hg : e.masterGain = some g) (ht01 : t0 + fadeOutDuration ≤ t1) :
    (∀ id g', (resetAndPlayTheme e t0 t1 nid nls nmv
        nlv).themeGains.lookup id = some g' → id ≠ nid →
      g'.valueAt t1 = 0) ∧
    (∀ id pl, (resetAndPlayTheme e t0 t1 nid nls nmv
        nlv).layerPlayers.lookup id = some pl → nls.contains id = true →
      nlv.lookup id = none → pl.gainNode.valueAt t1 = 1 / 2) ∧
    (∀ id pl, (resetAndPlayTheme e t0 t1 nid nls nmv
        nlv).layerPlayers.lookup id = some pl → nls.contains id = false →
      pl.gainNode.valueAt t1 = 0) := by
  have hcl' : ({ e with masterGain := some (g.rampTo t0 0 fadeOutDuration) } :
      AudioEngine).ctxClosed = false := hcl
  have hphase := resetAndPlayTheme_eq_phases e g t0 t1 nid nls nmv nlv hc hg
  refine ⟨?_, ?_, ?_⟩
  · intro id g' hid hne
    rw [hphase, resetPhase2_themeGains_lookup _ _ nid nls nmv nlv hcl' id] at hid
    obtain ⟨g0, hg0, hfg⟩ := Option.map_eq_some'.mp hid
    rw [← hfg, valueAt_cancel_set_const g0 t1 (themeTarget nid nmv id) t1 le_rfl,
      themeTarget, if_neg hne]
  · intro id pl hid hin hnone
    rw [hphase, resetPhase2_layerPlayers_lookup _ _ nid nls nmv nlv hcl' id] at hid
    obtain ⟨p0, hp0, hfp⟩ := Option.map_eq_some'.mp hid
    rw [← hfp]
    show ((p0.gainNode.cancelScheduledValues t1).setValueAtTime
      (layerTarget nls nlv id) t1).valueAt t1 = 1 / 2
    rw [valueAt_cancel_set_const p0.gainNode t1 (layerTarget nls nlv id) t1 le_rfl,
      layerTarget, if_pos hin, hnone]
    rfl
  · intro id pl hid hnotin
    rw [hphase, resetPhase2_layerPlayers_lookup _ _ nid nls nmv nlv hcl' id] at hid
    obtain ⟨p0, hp0, hfp⟩ := Option.map_eq_some'.mp hid
    rw [← hfp]
    show ((p0.gainNode.cancelScheduledValues t1).setValueAtTime
      (layerTarget nls nlv id) t1).valueAt t1 = 0
    rw [valueAt_cancel_set_const p0.gainNode t1 (layerTarget nls nlv id) t1 le_rfl,
      layerTarget, if_neg (by rw [hnotin]; exact Bool.false_ne_true)]

/-- Witness for C10 at a concrete engine: the non-selected theme "a" is
reassigned to 0 at the reconfiguration time. -/
theorem c10_reset_defaults_witness :
    (((⟨1, []⟩ : AudioParam).cancelScheduledValues
        (0 + fadeOutDuration)).setValueAtTime
      (themeTarget "b" (7 / 10) "a") (0 + fadeOutDuration)).valueAt
        (0 + fadeOutDuration) = 0 :=
  (c10_reset_defaults
    { mkEngine "a" [] with
        ctxPresent := true
        isInitialized := true
        masterGain := some ⟨1, []⟩
        themeGains := [("a", ⟨1, []⟩), ("b", ⟨0, []⟩)]
        layerPlayers := [("rain", mkLoopingPlayer ⟨1, 2, 1⟩ (1 / 5))] }
    ⟨1, []⟩ 0 (0 + fadeOutDuration) "b" ["forest"] (7 / 10) [("forest", 1 / 2)]
    rfl rfl rfl le_rfl).1 "a" _ rfl (by decide)

end Etherfields
